import Mathlib

/-!
# Verification of the sky-cam-cv max-stacking pipeline

Shallow embedding of `bin/sky-cam-cv.py`: the per-pixel max-selection
algorithm (`_update_max_stack_numba`), the stacker run loop
(`VideoStacker.run` / `save` / `stop`), the frame-acquisition loop
(`StreamCapture._reader`), the saver loop and filename formatting
(`Saver._save` / `_save_max_stack`), and the startup logic
(`_set_stack_period_to_config`, `main`).

Images are modelled as lists of pixels, each pixel a list of natural-number
channel values (the source stores 8-bit channels; hypotheses state the 8-bit
bound where a claim depends on it).  The `uint16` per-pixel sum computed by
`np.sum(frame, axis=-1, dtype=np.uint16)` is modelled as the exact sum
reduced modulo 2^16.  The 2-D pixel grid is flattened to one list of pixels:
the algorithm is pointwise in the pixel coordinate, so nothing is lost.
-/

namespace SkyCam

/-- One pixel: its list of channel values (BGR order in the source, 8-bit). -/
abbrev Pixel := List Nat

/-- One frame / image: a list of pixels. -/
abbrev Image := List Pixel

/-- `np.sum(frame, axis=-1, dtype=np.uint16)` at one pixel: the channel sum
in a 16-bit unsigned accumulator. -/
def frameSum (p : Pixel) : Nat := p.sum % 65536

/-- The per-pixel state held by `VideoStacker`: the stored pixel of
`self._max_stack` together with the stored sum of `self._stack_sum`. -/
abbrev PixelState := Pixel × Nat

/-- The body of the loops of `_update_max_stack_numba` at one pixel:
`if frame_sum[j, i] > stack_sum[j, i]:` overwrite both buffers, else keep. -/
def updatePixel (st : PixelState) (q : Pixel) : PixelState :=
  if frameSum q > st.2 then (q, frameSum q) else st

/-- The whole stack state: per pixel, the stored pixel and its stored sum.
(`self._max_stack` zipped with `self._stack_sum`.) -/
abbrev StackState := List PixelState

/-- `_update_max_stack_numba(max_stack, frame, stack_sum)`: every pixel is
updated independently. -/
def update_max_stack_numba (st : StackState) (frame : Image) : StackState :=
  List.zipWith updatePixel st frame

/-- Seeding a new window (`self._max_stack = frame`,
`self._stack_sum = np.zeros(...)`): the stored image is the first frame and
every stored sum is `0`. -/
def seedState (frame : Image) : StackState :=
  frame.map (fun p => (p, 0))

/-- Accumulating a window: seed with the first frame, then fold
`_update_max_stack_numba` over the later frames in order. -/
def accumulate (seed : Image) (fs : List Image) : StackState :=
  fs.foldl update_max_stack_numba (seedState seed)

/-- The `self._max_stack` buffer of a stack state. -/
def maxStack (st : StackState) : Image := st.map Prod.fst

/-- The `self._stack_sum` buffer of a stack state. -/
def stackSum (st : StackState) : List Nat := st.map Prod.snd

/-- A valid frame for the pipeline: 3 channels per pixel, 8 bits each. -/
def validImage (f : Image) : Prop :=
  ∀ p ∈ f, p.length = 3 ∧ ∀ c ∈ p, c ≤ 255

end SkyCam

namespace SkyCam

/-- The stored sum after one update is the maximum of the old stored sum and
the incoming frame sum. -/
theorem updatePixel_snd (st : PixelState) (q : Pixel) :
    (updatePixel st q).2 = max st.2 (frameSum q) := by
  unfold updatePixel
  split <;> omega

/-- If no incoming pixel beats the stored sum, nothing changes: the
strictly-greater comparison never replaces on equal. -/
theorem foldl_updatePixel_no_change (ps : List Pixel) (p : Pixel) (s : Nat)
    (h : ∀ q ∈ ps, frameSum q ≤ s) :
    ps.foldl updatePixel (p, s) = (p, s) := by
  induction ps with
  | nil => rfl
  | cons x rest ih =>
    have hx : frameSum x ≤ s := h x (List.mem_cons_self x rest)
    have hstep : updatePixel (p, s) x = (p, s) := by
      unfold updatePixel
      simp only
      split
      · omega
      · rfl
    simp only [List.foldl_cons, hstep]
    exact ih (fun q hq => h q (List.mem_cons_of_mem x hq))

/-- Per-pixel winner lemma: folding the update over a list of pixels, if the
pixel at index `k` has a frame sum strictly greater than the initial stored
sum and than every earlier pixel's sum, and at least as great as every later
pixel's sum, then the fold ends holding exactly that pixel and its sum. -/
theorem foldl_updatePixel_winner (ps : List Pixel) :
    ∀ (k : Nat) (p0 : Pixel) (s0 : Nat),
      k < ps.length →
      s0 < frameSum (ps.getD k []) →
      (∀ j, j < k → frameSum (ps.getD j []) < frameSum (ps.getD k [])) →
      (∀ j, k < j → j < ps.length →
        frameSum (ps.getD j []) ≤ frameSum (ps.getD k [])) →
      ps.foldl updatePixel (p0, s0) = (ps.getD k [], frameSum (ps.getD k [])) := by
  induction ps with
  | nil =>
    intro k p0 s0 hk
    exact absurd hk (by simp)
  | cons x rest ih =>
    intro k p0 s0 hk hpos hb ha
    cases k with
    | zero =>
      simp only [List.getD_cons_zero] at hpos ha ⊢
      have hstep : updatePixel (p0, s0) x = (x, frameSum x) := by
        unfold updatePixel
        simp only
        split
        · rfl
        · omega
      simp only [List.foldl_cons, hstep]
      refine foldl_updatePixel_no_change rest x (frameSum x) ?_
      intro q hq
      obtain ⟨j, hj⟩ := List.mem_iff_getElem.mp hq
      have := ha (j + 1) (Nat.succ_pos j) (by simpa using hj.1)
      rw [List.getD_cons_succ, List.getD_eq_getElem rest [] hj.1, hj.2] at this
      exact this
    | succ m =>
      simp only [List.getD_cons_succ] at hpos hb ha ⊢
      have hm : m < rest.length := by simpa using hk
      have hx : frameSum x < frameSum (rest.getD m []) := by
        have := hb 0 (Nat.succ_pos m)
        simpa using this
      have hb' : ∀ j, j < m →
          frameSum (rest.getD j []) < frameSum (rest.getD m []) := by
        intro j hj
        have := hb (j + 1) (by omega)
        simpa using this
      have ha' : ∀ j, m < j → j < rest.length →
          frameSum (rest.getD j []) ≤ frameSum (rest.getD m []) := by
        intro j hj hjl
        have := ha (j + 1) (by omega) (by simpa using hjl)
        simpa using this
      simp only [List.foldl_cons]
      have hsnd : (updatePixel (p0, s0) x).2 < frameSum (rest.getD m []) := by
        rw [updatePixel_snd]
        simp only [max_lt_iff]
        exact ⟨hpos, hx⟩
      have := ih m (updatePixel (p0, s0) x).1 (updatePixel (p0, s0) x).2
        hm hsnd hb' ha'
      simpa using this

/-- The stack state keeps its pixel count across one update, provided the
frame has the same pixel count. -/
theorem update_max_stack_numba_length (st : StackState) (f : Image)
    (h : f.length = st.length) :
    (update_max_stack_numba st f).length = st.length := by
  simp [update_max_stack_numba, h]

/-- One update acts pointwise: the state at pixel `i` after the update is
`updatePixel` of the old state at `i` and the frame's pixel `i`. -/
theorem update_max_stack_numba_getD (st : StackState) (f : Image) (i : Nat)
    (d : PixelState) (hf : f.length = st.length) (hi : i < st.length) :
    (update_max_stack_numba st f).getD i d =
      updatePixel (st.getD i d) (f.getD i []) := by
  have hlen : i < (update_max_stack_numba st f).length := by
    rw [update_max_stack_numba_length st f hf]
    exact hi
  rw [List.getD_eq_getElem _ _ hlen,
    List.getD_eq_getElem st d hi,
    List.getD_eq_getElem f [] (by omega)]
  exact List.getElem_zipWith

/-- Accumulation projects to the per-pixel fold: the state at pixel `i`
after folding any frames (all of the state's pixel count) equals the
per-pixel fold of those frames' pixels at `i`. -/
theorem foldl_update_getD (fs : List Image) :
    ∀ (st : StackState) (i : Nat) (d : PixelState),
      (∀ f ∈ fs, f.length = st.length) → i < st.length →
      (fs.foldl update_max_stack_numba st).getD i d =
        (fs.map (fun f => f.getD i [])).foldl updatePixel (st.getD i d) := by
  induction fs with
  | nil => intro st i d _ _; rfl
  | cons f rest ih =>
    intro st i d hlen hi
    have hf : f.length = st.length := hlen f (List.mem_cons_self f rest)
    have hlen' : ∀ g ∈ rest, g.length = (update_max_stack_numba st f).length := by
      intro g hg
      rw [update_max_stack_numba_length st f hf]
      exact hlen g (List.mem_cons_of_mem f hg)
    have hi' : i < (update_max_stack_numba st f).length := by
      rw [update_max_stack_numba_length st f hf]; exact hi
    simp only [List.foldl_cons, List.map_cons]
    rw [ih (update_max_stack_numba st f) i d hlen' hi',
      update_max_stack_numba_getD st f i d hf hi]

/-- The seed state at pixel `i` is the seed pixel with stored sum `0`. -/
theorem seedState_getD (seed : Image) (i : Nat) (hi : i < seed.length) :
    (seedState seed).getD i ([], 0) = (seed.getD i [], 0) := by
  have hlen : i < (seedState seed).length := by
    simpa [seedState] using hi
  rw [List.getD_eq_getElem _ _ hlen, List.getD_eq_getElem seed [] hi]
  simp [seedState]

/-- `maxStack` at pixel `i` is the first component of the state at `i`. -/
theorem maxStack_getD (st : StackState) (i : Nat) (hi : i < st.length) :
    (maxStack st).getD i [] = (st.getD i ([], 0)).1 := by
  have hlen : i < (maxStack st).length := by simpa [maxStack] using hi
  rw [List.getD_eq_getElem _ _ hlen, List.getD_eq_getElem st ([], 0) hi]
  simp [maxStack]

/-- `stackSum` at pixel `i` is the second component of the state at `i`. -/
theorem stackSum_getD (st : StackState) (i : Nat) (hi : i < st.length) :
    (stackSum st).getD i 0 = (st.getD i ([], 0)).2 := by
  have hlen : i < (stackSum st).length := by simpa [stackSum] using hi
  rw [List.getD_eq_getElem _ _ hlen, List.getD_eq_getElem st ([], 0) hi]
  simp [stackSum]

/-- `getD` commutes with projecting one pixel coordinate out of a frame
list. -/
theorem map_getD_pixel (fs : List Image) (i j : Nat) (hj : j < fs.length) :
    (fs.map (fun f => f.getD i [])).getD j [] = (fs.getD j []).getD i [] := by
  have hj' : j < (fs.map (fun f => f.getD i [])).length := by simpa using hj
  rw [List.getD_eq_getElem _ _ hj', List.getD_eq_getElem fs [] hj]
  simp

/-- Folding updates over frames of the right size keeps the pixel count. -/
theorem foldl_update_length (fs : List Image) :
    ∀ st : StackState, (∀ f ∈ fs, f.length = st.length) →
      (fs.foldl update_max_stack_numba st).length = st.length := by
  induction fs with
  | nil => intro st _; rfl
  | cons f rest ih =>
    intro st hlen
    have hf : f.length = st.length := hlen f (List.mem_cons_self f rest)
    have := ih (update_max_stack_numba st f) (fun g hg => by
      rw [update_max_stack_numba_length st f hf]
      exact hlen g (List.mem_cons_of_mem f hg))
    rw [List.foldl_cons, this, update_max_stack_numba_length st f hf]

/-- After any number of updates, each pixel state either records the frame
sum of its stored pixel, or is untouched: stored sum `0` with the initial
pixel. -/
theorem foldl_updatePixel_sum_inv (ps : List Pixel) :
    ∀ (p0 : Pixel) (st : PixelState),
      (st.2 = frameSum st.1 ∨ (st.2 = 0 ∧ st.1 = p0)) →
      ((ps.foldl updatePixel st).2 = frameSum (ps.foldl updatePixel st).1 ∨
        ((ps.foldl updatePixel st).2 = 0 ∧ (ps.foldl updatePixel st).1 = p0)) := by
  induction ps with
  | nil => intro p0 st h; exact h
  | cons q rest ih =>
    intro p0 st h
    rw [List.foldl_cons]
    refine ih p0 (updatePixel st q) ?_
    unfold updatePixel
    split
    · left; rfl
    · exact h

/-- The stored pixel is always either the initial pixel or one of the
incoming pixels. -/
theorem foldl_updatePixel_mem (ps : List Pixel) :
    ∀ st : PixelState,
      (ps.foldl updatePixel st).1 = st.1 ∨ (ps.foldl updatePixel st).1 ∈ ps := by
  induction ps with
  | nil => intro st; left; rfl
  | cons q rest ih =>
    intro st
    rw [List.foldl_cons]
    rcases ih (updatePixel st q) with h | h
    · by_cases hc : frameSum q > st.2
      · have hq : updatePixel st q = (q, frameSum q) := by
          simp [updatePixel, hc]
        right
        rw [h, hq]
        exact List.mem_cons_self q rest
      · have hq : updatePixel st q = st := by
          simp [updatePixel, hc]
        left
        rw [h, hq]
    · right
      exact List.mem_cons_of_mem q h

end SkyCam

namespace SkyCam

/-- **C1.** Max-selection correctness of `_update_max_stack_numba` folded
over a window: at any pixel coordinate, if the `k`-th compared frame's
per-pixel sum is strictly positive (so it beats the seeding frame's baseline
stored sum `0` — the seed itself is never compared), strictly greater than
every earlier compared frame's sum (so on equal sums the earlier frame is
retained), and at least every later compared frame's sum, then the resulting
max-stack holds exactly that frame's channel values at that pixel. -/
theorem claim1_max_selection (seed : Image) (fs : List Image) (i k : Nat)
    (hlen : ∀ f ∈ fs, f.length = seed.length)
    (hi : i < seed.length) (hk : k < fs.length)
    (hpos : 0 < frameSum ((fs.getD k []).getD i []))
    (hb : ∀ j, j < k →
      frameSum ((fs.getD j []).getD i []) < frameSum ((fs.getD k []).getD i []))
    (ha : ∀ j, k < j → j < fs.length →
      frameSum ((fs.getD j []).getD i []) ≤ frameSum ((fs.getD k []).getD i [])) :
    (maxStack (accumulate seed fs)).getD i [] = (fs.getD k []).getD i [] := by
  have hseedlen : ∀ f ∈ fs, f.length = (seedState seed).length := by
    intro f hf
    rw [show (seedState seed).length = seed.length by simp [seedState]]
    exact hlen f hf
  have hiseed : i < (seedState seed).length := by simpa [seedState] using hi
  have hacc : i < (accumulate seed fs).length := by
    unfold accumulate
    rw [foldl_update_length fs (seedState seed) hseedlen]
    exact hiseed
  rw [maxStack_getD _ i hacc]
  unfold accumulate
  rw [foldl_update_getD fs (seedState seed) i ([], 0) hseedlen hiseed,
    seedState_getD seed i hi]
  have hk' : k < (fs.map (fun f => f.getD i [])).length := by simpa using hk
  have hwin := foldl_updatePixel_winner (fs.map (fun f => f.getD i [])) k
    (seed.getD i []) 0 hk'
    (by rw [map_getD_pixel fs i k hk]; exact hpos)
    (by
      intro j hj
      rw [map_getD_pixel fs i k hk, map_getD_pixel fs i j (by omega)]
      exact hb j hj)
    (by
      intro j hj hjl
      rw [map_getD_pixel fs i k hk,
        map_getD_pixel fs i j (by simpa using hjl)]
      exact ha j hj (by simpa using hjl))
  rw [hwin, map_getD_pixel fs i k hk]

/-- Witness for C1: the spec's own example.  Seed frame
`A = [[10,10,10],[0,0,0],[5,5,5]]` then compared frame
`B = [[0,0,0],[20,20,20],[5,5,5]]`: the theorem applied at pixel 1 with
winner `B` gives `B`'s pixel, and the whole composite evaluates to
`[A pixel 0, B pixel 1, [5,5,5]]` as the claim states. -/
theorem claim1_witness :
    (maxStack (accumulate [[10, 10, 10], [0, 0, 0], [5, 5, 5]]
        [[[0, 0, 0], [20, 20, 20], [5, 5, 5]]])).getD 1 [] = [20, 20, 20] ∧
      maxStack (accumulate [[10, 10, 10], [0, 0, 0], [5, 5, 5]]
        [[[0, 0, 0], [20, 20, 20], [5, 5, 5]]]) =
        [[10, 10, 10], [20, 20, 20], [5, 5, 5]] := by
  constructor
  · exact claim1_max_selection
      [[10, 10, 10], [0, 0, 0], [5, 5, 5]]
      [[[0, 0, 0], [20, 20, 20], [5, 5, 5]]] 1 0
      (by decide) (by decide) (by decide) (by decide)
      (fun j hj => absurd hj (Nat.not_lt_zero j))
      (by
        intro j hj hjl
        exfalso
        simp only [List.length_cons, List.length_nil] at hjl
        omega)
  · decide

/-- **C3 (amended).** Buffer alignment invariant of the accumulator, as it
actually holds: at every pixel, either the stored sum equals the channel sum
of the stored max-stack pixel (every pixel some compared frame has
overwritten), or the pixel is untouched since seeding — stored sum `0` while
the max-stack still holds the seed frame's pixel, whose own channel sum need
not be `0`.  (8-bit 3-channel validity makes the 16-bit stored sum exact.) -/
theorem claim3_amended (seed : Image) (fs : List Image) (i : Nat)
    (hlen : ∀ f ∈ fs, f.length = seed.length) (hi : i < seed.length)
    (hseed : validImage seed) (hfs : ∀ f ∈ fs, validImage f) :
    (stackSum (accumulate seed fs)).getD i 0 =
        ((maxStack (accumulate seed fs)).getD i []).sum ∨
      ((stackSum (accumulate seed fs)).getD i 0 = 0 ∧
        (maxStack (accumulate seed fs)).getD i [] = seed.getD i []) := by
  have hseedlen : ∀ f ∈ fs, f.length = (seedState seed).length := by
    intro f hf
    rw [show (seedState seed).length = seed.length by simp [seedState]]
    exact hlen f hf
  have hiseed : i < (seedState seed).length := by simpa [seedState] using hi
  have hacc : i < (accumulate seed fs).length := by
    unfold accumulate
    rw [foldl_update_length fs (seedState seed) hseedlen]
    exact hiseed
  rw [maxStack_getD _ i hacc, stackSum_getD _ i hacc]
  unfold accumulate
  rw [foldl_update_getD fs (seedState seed) i ([], 0) hseedlen hiseed,
    seedState_getD seed i hi]
  set ps := fs.map (fun f => f.getD i []) with hps
  have hinv := foldl_updatePixel_sum_inv ps (seed.getD i [])
    (seed.getD i [], 0) (Or.inr ⟨rfl, rfl⟩)
  rcases hinv with hinv | hinv
  · left
    -- the stored pixel came from the seed or from one of the frames,
    -- so it is a valid 8-bit pixel and the 16-bit sum is exact
    have hmem := foldl_updatePixel_mem ps (seed.getD i [], 0)
    have hvalid : ((ps.foldl updatePixel (seed.getD i [], 0)).1).sum < 65536 := by
      have hpix : ∀ p : Pixel, p.length = 3 → (∀ c ∈ p, c ≤ 255) →
          p.sum < 65536 := by
        intro p h3 h8
        have h := List.sum_le_card_nsmul p 255 h8
        rw [h3] at h
        simp only [smul_eq_mul] at h
        omega
      rcases hmem with hm | hm
      · simp only at hm
        rw [hm]
        have hmem' : seed.getD i [] ∈ seed := by
          rw [List.getD_eq_getElem seed [] hi]
          exact List.getElem_mem hi
        obtain ⟨h3, h8⟩ := hseed _ hmem'
        exact hpix _ h3 h8
      · rw [hps] at hm
        obtain ⟨f, hf, hfp⟩ := List.mem_map.mp hm
        have hflen : i < f.length := by rw [hlen f hf]; exact hi
        have hmem' : f.getD i [] ∈ f := by
          rw [List.getD_eq_getElem f [] hflen]
          exact List.getElem_mem hflen
        obtain ⟨h3, h8⟩ := hfs f hf _ hmem'
        rw [← hfp]
        exact hpix _ h3 h8
    rw [hinv]
    unfold frameSum
    omega
  · right
    exact ⟨hinv.1, hinv.2⟩

/-- Counterexample to C3 as stated: immediately after seeding a window with
the frame `[[10,10,10]]` (zero compared frames), the sum buffer holds `0`
while the max-stack pixel's channel sum is `30` — the two buffers do not
agree at that point, contradicting "at every point during accumulation,
including immediately after seeding". -/
theorem claim3_counterexample :
    (stackSum (accumulate [[10, 10, 10]] [])).getD 0 0 ≠
        ((maxStack (accumulate [[10, 10, 10]] [])).getD 0 []).sum ∧
      (stackSum (accumulate [[10, 10, 10]] [])).getD 0 0 = 0 ∧
      ((maxStack (accumulate [[10, 10, 10]] [])).getD 0 []).sum = 30 := by
  decide

/-- Witness for the amended C3 at a concrete two-frame window. -/
theorem claim3_witness :
    (stackSum (accumulate [[10, 10, 10]] [[[3, 4, 5]]])).getD 0 0 =
        ((maxStack (accumulate [[10, 10, 10]] [[[3, 4, 5]]])).getD 0 []).sum ∨
      ((stackSum (accumulate [[10, 10, 10]] [[[3, 4, 5]]])).getD 0 0 = 0 ∧
        (maxStack (accumulate [[10, 10, 10]] [[[3, 4, 5]]])).getD 0 [] =
          ([[10, 10, 10]] : Image).getD 0 []) :=
  claim3_amended [[10, 10, 10]] [[[3, 4, 5]]] 0
    (by decide) (by decide) (by unfold validImage; decide)
    (by intro f hf; unfold validImage; intro p hp; simp at hf; subst hf
        simp at hp; subst hp; decide)

/-- One item delivered by `StreamCapture.read()`: the `(ret, frame, time)`
triple the reader thread enqueues.  `time` models the `time.time()` capture
timestamp (a nonnegative number; natural-number ticks suffice for every
claim, which only compare timestamps). -/
structure FrameEvent where
  success : Bool
  frame : Image
  time : Nat
  deriving DecidableEq

/-- One job placed on the `Saver` queue by `VideoStacker.save()`:
`(self._start_time, self._max_stack, "max", self._stack_length)`.  The first
two attributes are `None` between windows, hence `Option`. -/
structure SaveJob where
  startTime : Option Nat
  image : Option Image
  kind : String
  length : Nat
  deriving DecidableEq

/-- The in-window accumulation state of `VideoStacker.run`:
`self._start_time`, the local `save_at`, and the stack buffers. -/
structure AccumState where
  startTime : Nat
  saveAt : Nat
  stack : StackState
  deriving DecidableEq

/-- The loop state of `VideoStacker.run`: `acc` is `some` exactly when
`self._max_stack is not None`; `jobs` records everything put on the saver
queue so far; `numFrames` is `self._num_frames`. -/
structure RunState where
  acc : Option AccumState
  jobs : List SaveJob
  numFrames : Nat
  deriving DecidableEq

/-- `VideoStacker.save()`: unconditionally enqueue
`(self._start_time, self._max_stack, "max", self._stack_length)` — `None`
fields included — then reset `_start_time`, `_max_stack`, `_num_frames`. -/
def stackerSave (L : Nat) (st : RunState) : RunState :=
  { acc := none,
    jobs := st.jobs ++ [{ startTime := st.acc.map AccumState.startTime,
                          image := st.acc.map (fun a => maxStack a.stack),
                          kind := "max",
                          length := L }],
    numFrames := 0 }

/-- `VideoStacker.stop()`: calls `self.save()` first; the subsequent
`self._stream.stop()` and `self._saver.stop()` touch no stacker state. -/
def stackerStop (L : Nat) (st : RunState) : RunState :=
  stackerSave L st

/-- One iteration of the `while self._keep_running():` body of
`VideoStacker.run`, on one `(success, frame, frame_time)` read:
`continue` on failure; seed (`save_at = frame_time + stack_length`,
`stack_sum = 0`) when `self._max_stack is None`; otherwise update the
stacks FIRST, and only then compare `frame_time > save_at` to decide
whether to flush.  The flush branch runs the telemetry line
`print(sum(times) / self._num_frames)` BEFORE `self.save()`: when
`self._num_frames` is `0` (the trigger is the first compared frame since
the last seed or flush) that division raises `ZeroDivisionError`, aborting
`run()` with no job enqueued — modelled as `Except.error` carrying the
loop state at the abort (stacks already updated, queue untouched); only
with `self._num_frames > 0` does the flush reach `self.save()`. -/
def stepFrame (L : Nat) (st : RunState) (ev : FrameEvent) :
    Except RunState RunState :=
  if !ev.success then .ok st
  else
    match st.acc with
    | none =>
        .ok { st with acc := some { startTime := ev.time, saveAt := ev.time + L,
                                    stack := seedState ev.frame } }
    | some a =>
        let stack := update_max_stack_numba a.stack ev.frame
        if ev.time > a.saveAt then
          if st.numFrames = 0 then
            .error { st with acc := some { a with stack := stack } }
          else
            .ok (stackerSave L { st with acc := some { a with stack := stack } })
        else
          .ok { st with acc := some { a with stack := stack },
                        numFrames := st.numFrames + 1 }

/-- The accumulation loop over a list of reads, from a given state; an
uncaught exception in the loop body ends the whole run. -/
def runStackerAux (L : Nat) : RunState → List FrameEvent → Except RunState RunState
  | st, [] => .ok st
  | st, ev :: rest =>
      match stepFrame L st ev with
      | .ok st2 => runStackerAux L st2 rest
      | .error st2 => .error st2

/-- The whole accumulation loop over the frames read before session end,
from the initial state (`_max_stack = None`, nothing enqueued). -/
def runStacker (L : Nat) (evs : List FrameEvent) : Except RunState RunState :=
  runStackerAux L { acc := none, jobs := [], numFrames := 0 } evs

/-- A failed read leaves the loop state unchanged (`continue`). -/
theorem stepFrame_fail (L : Nat) (st : RunState) (ev : FrameEvent)
    (h : ev.success = false) : stepFrame L st ev = .ok st := by
  simp [stepFrame, h]

/-- A successful read into an empty window seeds it. -/
theorem stepFrame_seed (L : Nat) (st : RunState) (ev : FrameEvent)
    (h : ev.success = true) (ha : st.acc = none) :
    stepFrame L st ev =
      .ok { st with acc := some { startTime := ev.time, saveAt := ev.time + L,
                                  stack := seedState ev.frame } } := by
  simp [stepFrame, h, ha]

/-- A successful read within the window (timestamp not past `save_at`)
updates the stacks and increments the frame count; nothing is flushed. -/
theorem stepFrame_accum (L : Nat) (st : RunState) (ev : FrameEvent)
    (a : AccumState) (h : ev.success = true) (ha : st.acc = some a)
    (ht : ¬ ev.time > a.saveAt) :
    stepFrame L st ev =
      .ok { st with
              acc := some { a with stack := update_max_stack_numba a.stack ev.frame },
              numFrames := st.numFrames + 1 } := by
  simp [stepFrame, h, ha, ht]

/-- A successful read past `save_at`, with at least one frame accumulated
since the last reset, first folds the triggering frame into the stacks,
then flushes: the enqueued job carries the updated composite and the window
resets. -/
theorem stepFrame_flush (L : Nat) (st : RunState) (ev : FrameEvent)
    (a : AccumState) (h : ev.success = true) (ha : st.acc = some a)
    (ht : ev.time > a.saveAt) (hn : st.numFrames ≠ 0) :
    stepFrame L st ev =
      .ok { acc := none,
            jobs := st.jobs ++
              [{ startTime := some a.startTime,
                 image := some (maxStack (update_max_stack_numba a.stack ev.frame)),
                 kind := "max", length := L }],
            numFrames := 0 } := by
  simp [stepFrame, stackerSave, h, ha, ht, hn]

/-- A successful read past `save_at` with `self._num_frames = 0` hits the
`ZeroDivisionError` in `print(sum(times) / self._num_frames)`: the stacks
were already updated with the triggering frame, but `run()` aborts and no
job is enqueued. -/
theorem stepFrame_crash (L : Nat) (st : RunState) (ev : FrameEvent)
    (a : AccumState) (h : ev.success = true) (ha : st.acc = some a)
    (ht : ev.time > a.saveAt) (hn : st.numFrames = 0) :
    stepFrame L st ev =
      .error { st with
                 acc := some { a with
                   stack := update_max_stack_numba a.stack ev.frame } } := by
  simp [stepFrame, h, ha, ht, hn]

/-- In every state reached without crashing, the pending window's `save_at`
equals its `window_start_time + stack_length`: `save_at` is set only at
seeding, from the seeding frame's timestamp. -/
theorem runStackerAux_saveAt_inv (L : Nat) (evs : List FrameEvent) :
    ∀ st : RunState, (∀ a, st.acc = some a → a.saveAt = a.startTime + L) →
      ∀ st2 a, runStackerAux L st evs = .ok st2 → st2.acc = some a →
        a.saveAt = a.startTime + L := by
  induction evs with
  | nil =>
    intro st hst st2 a hrun hacc
    simp only [runStackerAux, Except.ok.injEq] at hrun
    subst hrun
    exact hst a hacc
  | cons ev rest ih =>
    intro st hst st2 a hrun hacc
    rcases hstep : stepFrame L st ev with mid | mid
    · rw [show runStackerAux L st (ev :: rest) = .error mid by
        simp [runStackerAux, hstep]] at hrun
      exact absurd hrun (by simp)
    · rw [show runStackerAux L st (ev :: rest) = runStackerAux L mid rest by
        simp [runStackerAux, hstep]] at hrun
      refine ih mid ?_ st2 a hrun hacc
      intro b hb
      by_cases hs : ev.success = true
      · rcases hacc0 : st.acc with _ | c
        · rw [stepFrame_seed L st ev hs hacc0] at hstep
          injection hstep with h2
          subst h2
          injection hb with h3
          subst h3
          rfl
        · by_cases ht : ev.time > c.saveAt
          · rcases hn : st.numFrames with _ | n
            · rw [stepFrame_crash L st ev c hs hacc0 ht hn] at hstep
              simp at hstep
            · rw [stepFrame_flush L st ev c hs hacc0 ht (by omega)] at hstep
              injection hstep with h2
              subst h2
              exact Option.noConfusion hb
          · rw [stepFrame_accum L st ev c hs hacc0 ht] at hstep
            injection hstep with h2
            subst h2
            injection hb with h3
            subst h3
            exact hst c hacc0
      · rw [stepFrame_fail L st ev (by simpa using hs)] at hstep
        injection hstep with h2
        subst h2
        exact hst b hb

/-- `save_at = window_start_time + stack_length` in every state the loop
reaches without crashing, from the initial empty state. -/
theorem runStacker_saveAt_inv (L : Nat) (evs : List FrameEvent) :
    ∀ st2 a, runStacker L evs = .ok st2 → st2.acc = some a →
      a.saveAt = a.startTime + L := by
  intro st2 a hrun hacc
  exact runStackerAux_saveAt_inv L evs { acc := none, jobs := [], numFrames := 0 }
    (fun b hb => Option.noConfusion hb) st2 a hrun hacc

end SkyCam

namespace SkyCam

/-- **C2 (amended).** Window-flush behaviour of `VideoStacker.run`, as the
code has it.  A job is enqueued (a flush) exactly when a successfully read
frame's timestamp strictly exceeds the pending window's `save_at` (always
`window_start_time + stack_length`) AND at least one frame has been
accumulated without flushing since the last reset (`self._num_frames > 0`).
In that case the triggering frame is first folded into the stacks, so the
flushed composite includes its pixels, and the window resets so the NEXT
frame seeds the next window.  When the timestamp exceeds `save_at` but
`self._num_frames = 0`, the telemetry division
`print(sum(times) / self._num_frames)` raises `ZeroDivisionError` before
`self.save()`: the run aborts with no job enqueued (and the stacks already
contain the triggering frame). -/
theorem claim2_amended (L : Nat) (st : RunState) (ev : FrameEvent) :
    ((∃ st2, stepFrame L st ev = .ok st2 ∧
        st2.jobs.length = st.jobs.length + 1) ↔
      (ev.success = true ∧ st.numFrames ≠ 0 ∧
        ∃ a, st.acc = some a ∧ ev.time > a.saveAt)) ∧
    (∀ a, ev.success = true → st.acc = some a → ev.time > a.saveAt →
      st.numFrames ≠ 0 →
      stepFrame L st ev =
        .ok { acc := none,
              jobs := st.jobs ++
                [{ startTime := some a.startTime,
                   image := some (maxStack
                     (update_max_stack_numba a.stack ev.frame)),
                   kind := "max", length := L }],
              numFrames := 0 }) ∧
    (∀ a, ev.success = true → st.acc = some a → ev.time > a.saveAt →
      st.numFrames = 0 →
      stepFrame L st ev =
        .error { st with
                   acc := some { a with
                     stack := update_max_stack_numba a.stack ev.frame } }) ∧
    (∀ a, ev.success = true → st.acc = some a → ¬ ev.time > a.saveAt →
      stepFrame L st ev =
        .ok { st with
                acc := some { a with
                  stack := update_max_stack_numba a.stack ev.frame },
                numFrames := st.numFrames + 1 }) ∧
    (∀ evs st2 a, runStacker L evs = .ok st2 → st2.acc = some a →
      a.saveAt = a.startTime + L) := by
  refine ⟨?_, ?_, ?_, ?_, fun evs => runStacker_saveAt_inv L evs⟩
  · constructor
    · rintro ⟨st2, hok, hlen⟩
      by_cases hs : ev.success = true
      · rcases hacc : st.acc with _ | a
        · rw [stepFrame_seed L st ev hs hacc] at hok
          injection hok with h2
          subst h2
          simp at hlen
        · by_cases ht : ev.time > a.saveAt
          · rcases hn : st.numFrames with _ | n
            · rw [stepFrame_crash L st ev a hs hacc ht hn] at hok
              simp at hok
            · exact ⟨hs, by omega, a, rfl, ht⟩
          · rw [stepFrame_accum L st ev a hs hacc ht] at hok
            injection hok with h2
            subst h2
            simp at hlen
      · rw [stepFrame_fail L st ev (by simpa using hs)] at hok
        injection hok with h2
        subst h2
        simp at hlen
    · rintro ⟨hs, hn, a, hacc, ht⟩
      refine ⟨_, stepFrame_flush L st ev a hs hacc ht hn, ?_⟩
      simp
  · intro a hs hacc ht hn
    exact stepFrame_flush L st ev a hs hacc ht hn
  · intro a hs hacc ht hn
    exact stepFrame_crash L st ev a hs hacc ht hn
  · intro a hs hacc ht
    exact stepFrame_accum L st ev a hs hacc ht

/-- Counterexample to C2 as stated: with `stack_length = 10`, seed frame
`[[0,0,0]]` at `t = 0`, one in-window frame `[[10,10,10]]` at `t = 5`
(so `self._num_frames = 1` and the telemetry division succeeds), and
triggering frame `[[255,255,255]]` at `t = 11 > 0 + 10`: the flushed
composite is the TRIGGERING frame's image, not the window's prior
composite `[[10,10,10]]` — the triggering frame's pixels are folded into
the composite being flushed, and it is not carried into the next window
(the loop ends with no pending window). -/
theorem claim2_counterexample :
    runStacker 10
        [{ success := true, frame := [[0, 0, 0]], time := 0 },
         { success := true, frame := [[10, 10, 10]], time := 5 },
         { success := true, frame := [[255, 255, 255]], time := 11 }] =
      .ok { acc := none,
            jobs := [{ startTime := some 0, image := some [[255, 255, 255]],
                       kind := "max", length := 10 }],
            numFrames := 0 } ∧
    some ([[255, 255, 255]] : Image) ≠ some [[10, 10, 10]] := by
  exact ⟨rfl, by decide⟩

/-- Witness for the amended C2 at a concrete flush step with one already
accumulated frame. -/
theorem claim2_witness :
    stepFrame 10
        { acc := some { startTime := 0, saveAt := 10,
                        stack := [([10, 10, 10], 30)] },
          jobs := [], numFrames := 1 }
        { success := true, frame := [[255, 255, 255]], time := 11 } =
      .ok { acc := none,
            jobs := [{ startTime := some 0,
                       image := some (maxStack (update_max_stack_numba
                         [([10, 10, 10], 30)] [[255, 255, 255]])),
                       kind := "max", length := 10 }],
            numFrames := 0 } :=
  (claim2_amended 10
      { acc := some { startTime := 0, saveAt := 10,
                      stack := [([10, 10, 10], 30)] },
        jobs := [], numFrames := 1 }
      { success := true, frame := [[255, 255, 255]], time := 11 }).2.1
    { startTime := 0, saveAt := 10, stack := [([10, 10, 10], 30)] }
    rfl rfl (by decide) (by decide)

/-- The local variables in scope at
`fname = self._fname_fmt.format(**locals())` inside `Saver._save_max_stack`:
`self`, `start_time`, `data`, `stack_type`, `stack_length`, `img`.  These
are exactly the names a filename template can reference. -/
inductive LocalField where
  | start_time
  | data
  | stack_type
  | stack_length
  | img
  | self_obj
  deriving DecidableEq

/-- One piece of a filename template: literal text, or a `{name}`
substitution of one of the local variables. -/
inductive TmplItem where
  | lit (s : String)
  | field (f : LocalField)
  deriving DecidableEq

/-- The string renderings of the locals at format time (Python renders each
referenced value with `str`). -/
structure SaverLocals where
  start_time : String
  data : String
  stack_type : String
  stack_length : String
  img : String
  self_obj : String
  deriving DecidableEq

/-- Look one local variable up in the format environment. -/
def lookupLocal (env : SaverLocals) : LocalField → String
  | .start_time => env.start_time
  | .data => env.data
  | .stack_type => env.stack_type
  | .stack_length => env.stack_length
  | .img => env.img
  | .self_obj => env.self_obj

/-- `self._fname_fmt.format(**locals())`: render each template piece against
the full local environment and concatenate. -/
def formatName (tmpl : List TmplItem) (env : SaverLocals) : String :=
  String.join (tmpl.map (fun it =>
    match it with
    | .lit s => s
    | .field f => lookupLocal env f))

/-- A template piece that can only reveal the timestamp: literal text or a
`{start_time}` reference. -/
def usesOnlyStartTime : TmplItem → Bool
  | .lit _ => true
  | .field .start_time => true
  | .field _ => false

/-- The format environment built by `_save_max_stack`, given the rendered
`start_time` string and the job fields (`data`, `stack_type`,
`stack_length`) plus the channel-reversed `img`. -/
def mkSaverLocals (start_time : String) (data : Image) (stack_type : String)
    (stack_length : Nat) (img : Image) : SaverLocals :=
  { start_time := start_time,
    data := toString data,
    stack_type := stack_type,
    stack_length := toString stack_length,
    img := toString img,
    self_obj := "<Saver>" }

/-- `Saver._save_max_stack(start_time, data, stack_type, stack_length)`:
reverse the channel order of `data` (BGR to RGB), optionally reformat
`start_time` through the configured date pattern (`date_fmt`, modelled as an
arbitrary rendering function standing in for the external `strftime`), then
build the filename from the template over the full local scope.  A `None`
image makes `data[:, :, ::-1]` raise before anything else; a `None`
timestamp with a configured date pattern makes `fromtimestamp` raise. -/
def saveMaxStack (date_fmt : Option (Nat → String)) (fname_fmt : List TmplItem)
    (job : SaveJob) : Except String String :=
  match job.image with
  | none => Except.error "TypeError: NoneType is not subscriptable"
  | some data =>
    let img := data.map List.reverse
    match date_fmt, job.startTime with
    | some _, none => Except.error "TypeError: fromtimestamp of None"
    | some f, some t =>
        Except.ok (formatName fname_fmt
          (mkSaverLocals (f t) data job.kind job.length img))
    | none, some t =>
        Except.ok (formatName fname_fmt
          (mkSaverLocals (toString t) data job.kind job.length img))
    | none, none =>
        Except.ok (formatName fname_fmt
          (mkSaverLocals "None" data job.kind job.length img))

/-- The dispatch in the `Saver._save` loop body: only jobs whose
`stack_type` is `"max"` are handed to `_save_max_stack`. -/
def saverHandle (date_fmt : Option (Nat → String)) (fname_fmt : List TmplItem)
    (job : SaveJob) : Option (Except String String) :=
  if job.kind = "max" then some (saveMaxStack date_fmt fname_fmt job) else none

/-- Templates that reference only `start_time` render equally over
environments agreeing on `start_time`. -/
theorem formatName_start_time_only (tmpl : List TmplItem)
    (htmpl : ∀ it ∈ tmpl, usesOnlyStartTime it = true)
    (e1 e2 : SaverLocals) (h : e1.start_time = e2.start_time) :
    formatName tmpl e1 = formatName tmpl e2 := by
  unfold formatName
  congr 1
  refine List.map_congr_left ?_
  intro it hit
  have hu := htmpl it hit
  match it with
  | .lit s => rfl
  | .field f =>
    cases f <;> simp [usesOnlyStartTime] at hu ⊢
    exact h

end SkyCam

namespace SkyCam

/-- **C7 (amended).** Filename formatting as the code has it: the template
is rendered with `format(**locals())`, so it can reference every local of
`_save_max_stack` (`start_time`, `data`, `stack_type`, `stack_length`,
`img`, `self`) — not a fixed timestamp-only whitelist.  Only under the
added hypothesis that the template references nothing but `start_time` do
two jobs with equal timestamps (and present images) yield the same
filename. -/
theorem claim7_amended (date_fmt : Option (Nat → String))
    (tmpl : List TmplItem) (j1 j2 : SaveJob)
    (htmpl : ∀ it ∈ tmpl, usesOnlyStartTime it = true)
    (ht : j1.startTime = j2.startTime)
    (h1 : j1.image.isSome = true) (h2 : j2.image.isSome = true) :
    saveMaxStack date_fmt tmpl j1 = saveMaxStack date_fmt tmpl j2 := by
  obtain ⟨d1, hd1⟩ := Option.isSome_iff_exists.mp h1
  obtain ⟨d2, hd2⟩ := Option.isSome_iff_exists.mp h2
  unfold saveMaxStack
  rw [hd1, hd2, ht]
  rcases date_fmt with _ | f <;> rcases hst : j2.startTime with _ | t <;>
    simp only <;>
    first
      | rfl
      | exact congrArg Except.ok (formatName_start_time_only tmpl htmpl _ _ rfl)

/-- Counterexample to C7 as stated: with template `"{stack_length}"`, two
jobs identical except for their non-timestamp `stack_length` field (10
versus 20) produce the filenames `"10"` and `"20"` — the template observed
an internal variable other than the timestamp, and the filenames differ. -/
theorem claim7_counterexample :
    saveMaxStack none [TmplItem.field LocalField.stack_length]
        { startTime := some 5, image := some [[1, 2, 3]],
          kind := "max", length := 10 } = Except.ok "10" ∧
      saveMaxStack none [TmplItem.field LocalField.stack_length]
        { startTime := some 5, image := some [[1, 2, 3]],
          kind := "max", length := 20 } = Except.ok "20" ∧
      ("10" : String) ≠ "20" := by
  refine ⟨rfl, rfl, by decide⟩

/-- Witness for the amended C7: a timestamp-only template on two jobs that
differ in image, length — the filenames agree. -/
theorem claim7_witness :
    saveMaxStack none
        [TmplItem.field LocalField.start_time, TmplItem.lit "_max.png"]
        { startTime := some 5, image := some [[1, 2, 3]],
          kind := "max", length := 10 } =
      saveMaxStack none
        [TmplItem.field LocalField.start_time, TmplItem.lit "_max.png"]
        { startTime := some 5, image := some [[250, 250, 250]],
          kind := "max", length := 20 } :=
  claim7_amended none
    [TmplItem.field LocalField.start_time, TmplItem.lit "_max.png"]
    { startTime := some 5, image := some [[1, 2, 3]],
      kind := "max", length := 10 }
    { startTime := some 5, image := some [[250, 250, 250]],
      kind := "max", length := 20 }
    (by decide) rfl rfl rfl

/-- **C10.** The final-flush path has no nonempty-window guard:
`VideoStacker.stop()` (via `save()`) on a state with no accepted frame
enqueues a job whose start time and image are both `None`, and the saver's
`"max"` dispatch hands that job to `_save_max_stack`, whose very first step
(`data[:, :, ::-1]`) fails on the absent image. -/
theorem claim10_unguarded_final_flush (L : Nat) (jobs : List SaveJob)
    (n : Nat) (date_fmt : Option (Nat → String)) (tmpl : List TmplItem) :
    (stackerStop L { acc := none, jobs := jobs, numFrames := n }).jobs =
        jobs ++ [{ startTime := none, image := none, kind := "max",
                   length := L }] ∧
      saverHandle date_fmt tmpl
          { startTime := none, image := none, kind := "max", length := L } =
        some (Except.error "TypeError: NoneType is not subscriptable") := by
  exact ⟨rfl, rfl⟩

/-- `StreamCapture._reader`: for each `self.cap.read()` result in order,
enqueue `(ret, frame, frame_time)` when `ret` is truthy, and `break` out of
the loop — enqueuing nothing — the first time `ret` is falsy.  The returned
list is the whole content ever placed on the frame queue (the `running`
flag stays set for the scenarios of this claim; it only ends the loop
early on an explicit `stop()`). -/
def reader_queue : List FrameEvent → List FrameEvent
  | [] => []
  | e :: rest => if e.success then e :: reader_queue rest else []

/-- The body of the `Saver._save` loop: while the observed `self.running`
flag is still true, dequeue the next job and process it; the first false
observation exits the loop, and a dequeue on an empty queue blocks forever
(the `queue.Empty` branch is unreachable for a blocking `get()`).
`checks` is the sequence of flag values the thread observes at successive
`while` tests — `Saver.stop()` contributes the `false`s — and `jobs` the
queue content; the result is every job the thread ever dequeues. -/
def saver_loop : List Bool → List SaveJob → List SaveJob
  | true :: checks, job :: js => job :: saver_loop checks js
  | _, _ => []

end SkyCam

namespace SkyCam

/-- **C6 (amended).** On a stream-read failure the acquisition loop stops
delivering frames and exits, with no retry: the frame queue receives
exactly the successful reads preceding the first failure.  In particular no
end-of-stream marker is enqueued (every queued entry has `ret = True`), so
the failure is not observable through `read()` — a subsequent `read()`
blocks on the empty queue instead. -/
theorem claim6_amended (reads : List FrameEvent) :
    reader_queue reads = reads.takeWhile (fun e => e.success) := by
  induction reads with
  | nil => rfl
  | cons e rest ih =>
    rw [List.takeWhile_cons]
    by_cases h : e.success <;> simp [reader_queue, h, ih]

/-- Counterexample to C6 as stated: one successful read then a failed one.
The queue holds only the pre-failure frame; there is no second entry at
all, let alone an end-of-stream signal, so the accumulation loop's second
`read()` has nothing to dequeue and blocks indefinitely — the failure is
never "propagated as an end-of-stream signal observable through read()". -/
theorem claim6_counterexample :
    reader_queue
        [{ success := true, frame := [[1]], time := 0 },
         { success := false, frame := [[2]], time := 1 }] =
      [{ success := true, frame := [[1]], time := 0 }] ∧
    (reader_queue
        [{ success := true, frame := [[1]], time := 0 },
         { success := false, frame := [[2]], time := 1 }])[1]? = none := by
  exact ⟨rfl, rfl⟩

/-- **C4 (amended).** Shutdown draining of the `Saver`, as the code has it:
`stop()` only clears the `running` flag and joins; the saver thread
processes exactly the jobs it dequeues while the flag is still observed
true — `jobs.take` of the number of leading true observations.  Jobs still
queued when the flag is first observed false are discarded, so a job
enqueued before `stop()` is NOT guaranteed to be persisted. -/
theorem claim4_amended (checks : List Bool) (jobs : List SaveJob) :
    saver_loop checks jobs = jobs.take (checks.takeWhile id).length := by
  induction checks generalizing jobs with
  | nil => simp [saver_loop]
  | cons c checks ih =>
    cases c
    · simp [saver_loop]
    · cases jobs with
      | nil => simp [saver_loop]
      | cons j js =>
        rw [List.takeWhile_cons]
        simp only [id, if_true, List.length_cons, List.take_succ_cons]
        rw [show saver_loop (true :: checks) (j :: js) = j :: saver_loop checks js
          from rfl, ih js]

/-- Counterexample to C4 as stated: both jobs are already in the queue, the
thread observes `running = true` once (dequeuing the first job), then
`stop()` has cleared the flag — the loop exits with the second enqueued job
still in the queue, silently discarded. -/
theorem claim4_counterexample :
    saver_loop [true, false]
        [{ startTime := some 0, image := some [[1]], kind := "max", length := 10 },
         { startTime := some 5, image := some [[2]], kind := "max", length := 10 }] =
      [{ startTime := some 0, image := some [[1]], kind := "max", length := 10 }] ∧
    ({ startTime := some 5, image := some [[2]], kind := "max", length := 10 } : SaveJob) ∉
      [({ startTime := some 0, image := some [[1]], kind := "max", length := 10 } : SaveJob)] := by
  exact ⟨rfl, by decide⟩

end SkyCam

namespace SkyCam

/-- **C5.** For every valid 3-channel 8-bit frame, the per-pixel channel sum
computed into the `uint16` accumulator never overflows: every pixel's exact
sum is at most `765 < 2^16`, and the stored 16-bit value equals the exact
sum. -/
theorem claim5_sum_no_overflow (frame : Image) (hv : validImage frame) :
    ∀ p ∈ frame, p.sum ≤ 765 ∧ p.sum < 65536 ∧ frameSum p = p.sum := by
  intro p hp
  obtain ⟨hlen, hbound⟩ := hv p hp
  have hsum : p.sum ≤ 765 := by
    have h := List.sum_le_card_nsmul p 255 hbound
    rw [hlen] at h
    simpa using h
  refine ⟨hsum, by omega, ?_⟩
  unfold frameSum
  omega

/-- Witness for C5 at a concrete saturated frame. -/
theorem claim5_witness :
    validImage [[255, 255, 255], [0, 1, 2]] ∧
      ([255, 255, 255] : Pixel).sum ≤ 765 ∧
      ([255, 255, 255] : Pixel).sum < 65536 ∧
      frameSum [255, 255, 255] = ([255, 255, 255] : Pixel).sum := by
  have hv : validImage [[255, 255, 255], [0, 1, 2]] := by
    unfold validImage; decide
  exact ⟨hv, claim5_sum_no_overflow [[255, 255, 255], [0, 1, 2]] hv
    [255, 255, 255] (by decide)⟩

end SkyCam

namespace SkyCam

/-- The `stacks` section of the configuration. -/
structure StacksConfig where
  stack_length : Nat
  stack_period : Option Int
  saturation_limit : Option Nat
  deriving DecidableEq

/-- The `stream` section of the configuration, consumed by
`_get_stream_url`. -/
structure StreamConfig where
  protocol : Option String
  username : String
  password : String
  camera_ip : String
  port : Option Nat
  stream : String
  deriving DecidableEq

/-- The configuration mapping as `main` sees it.  `stack_period_top` is a
TOP-LEVEL `stack_period` key: `_set_stack_period_to_config` tests
`"stack_period" in config` against the top-level mapping, not against the
`stacks` section it writes to.  (The `saving` and `location` sections are
consumed only by the `Saver` constructor and by the external astronomical
scheduler, and play no role in the startup decisions verified here.) -/
structure Config where
  stack_period_top : Option Int
  stacks_section : StacksConfig
  stream : StreamConfig
  deriving DecidableEq

/-- `_get_stream_url(config)`: compose the connection locator. -/
def get_stream_url (c : StreamConfig) : String :=
  (c.protocol.getD "rtsp") ++ "://" ++ c.username ++ ":" ++ c.password ++ "@"
    ++ c.camera_ip ++ ":" ++ toString (c.port.getD 554) ++ "/" ++ c.stream

/-- `_set_stack_period_to_config(config)`: if `"stack_period" in config`
(the TOP-LEVEL mapping) return unchanged; otherwise store the
scheduler-computed duration into `config["stacks"]["stack_period"]`,
overwriting whatever the stacks section held.  `computed` is the value
`_calculate_stack_period` would return (its internals call the external
`ephem` collaborator: a negative value means "do not run tonight"). -/
def set_stack_period_to_config (computed : Int) (cfg : Config) : Config :=
  if cfg.stack_period_top.isSome then cfg
  else { cfg with stacks_section := { cfg.stacks_section with stack_period := some computed } }

/-- What `main` does after reading the configuration. -/
inductive MainOutcome where
  | exitEarly
  | missingPeriod
  | started (url : String) (period : Int)
  deriving DecidableEq

/-- `main()` after `read_config`: fill in the stack period, then
`if config["stacks"]["stack_period"] < 0: return` BEFORE constructing
`StreamCapture`, `Saver` or `VideoStacker`; only a non-negative period
reaches construction and `stacker.run()`.  A still-missing
`stacks.stack_period` key would raise (`missingPeriod`). -/
def mainModel (computed : Int) (cfg : Config) : MainOutcome :=
  let cfg2 := set_stack_period_to_config computed cfg
  match cfg2.stacks_section.stack_period with
  | none => MainOutcome.missingPeriod
  | some p =>
      if p < 0 then MainOutcome.exitEarly
      else MainOutcome.started (get_stream_url cfg2.stream) p

/-- `true` exactly on the outcome in which the pipeline components were
constructed and started. -/
def componentsStarted : MainOutcome → Bool
  | .started _ _ => true
  | _ => false

end SkyCam

namespace SkyCam

/-- **C8.** Whenever the effective session duration — the
`stacks.stack_period` value in force after `_set_stack_period_to_config`,
whether configured or scheduler-computed — is strictly negative, `main`
returns before constructing anything: no `StreamCapture`, no `Saver`, no
`VideoStacker`, no I/O. -/
theorem claim8_negative_period_never_starts (computed : Int) (cfg : Config)
    (p : Int)
    (hp : (set_stack_period_to_config computed cfg).stacks_section.stack_period = some p)
    (hneg : p < 0) :
    mainModel computed cfg = MainOutcome.exitEarly ∧
      componentsStarted (mainModel computed cfg) = false := by
  have hmain : mainModel computed cfg = MainOutcome.exitEarly := by
    unfold mainModel
    simp only [hp]
    rw [if_pos hneg]
  exact ⟨hmain, by rw [hmain]; rfl⟩

/-- Witness for C8: a scheduler-computed duration of `-1` with no
configured period. -/
theorem claim8_witness :
    mainModel (-1)
        { stack_period_top := none,
          stacks_section := { stack_length := 600, stack_period := none, saturation_limit := none },
          stream := { protocol := none, username := "u", password := "pw",
                      camera_ip := "192.168.0.9", port := none,
                      stream := "live" } } = MainOutcome.exitEarly ∧
      componentsStarted (mainModel (-1)
        { stack_period_top := none,
          stacks_section := { stack_length := 600, stack_period := none, saturation_limit := none },
          stream := { protocol := none, username := "u", password := "pw",
                      camera_ip := "192.168.0.9", port := none,
                      stream := "live" } }) = false :=
  claim8_negative_period_never_starts (-1)
    { stack_period_top := none,
      stacks_section := { stack_length := 600, stack_period := none, saturation_limit := none },
      stream := { protocol := none, username := "u", password := "pw",
                  camera_ip := "192.168.0.9", port := none,
                  stream := "live" } }
    (-1) rfl (by decide)

/-- **C9 (code bug).** The guard of `_set_stack_period_to_config` tests the
TOP-LEVEL mapping for `"stack_period"`, yet reads and writes
`config["stacks"]["stack_period"]`.  With `stack_period = 100` configured
in the stacks section (and no top-level key), the scheduler IS consulted
and its value overwrites the configured one: here the computed `-1`
replaces the configured `100` and the session refuses to run, where the
claim (and the spec's configuration table) say the configured `100` is
used and the scheduler is not consulted. -/
theorem claim9_configured_period_overwritten :
    (set_stack_period_to_config (-1)
        { stack_period_top := none,
          stacks_section := { stack_length := 600, stack_period := some 100, saturation_limit := none },
          stream := { protocol := none, username := "u", password := "pw",
                      camera_ip := "192.168.0.9", port := none,
                      stream := "live" } }).stacks_section.stack_period = some (-1) ∧
      mainModel (-1)
        { stack_period_top := none,
          stacks_section := { stack_length := 600, stack_period := some 100, saturation_limit := none },
          stream := { protocol := none, username := "u", password := "pw",
                      camera_ip := "192.168.0.9", port := none,
                      stream := "live" } } = MainOutcome.exitEarly ∧
      (some (-1) : Option Int) ≠ some 100 := by
  refine ⟨rfl, rfl, by decide⟩

end SkyCam
